import Mathlib

/-!
Verification of the NYC building-footprints ingestion pipeline (`main.py`).

This file gives a shallow embedding of the scraper's data model and control
flow and proves theorems checking the specified properties.  The embedding
follows the Python source: `process_feature` and the body of `run_scraper`
are translated definition by definition; the HTTP source is modelled as the
list of (JSON-decoded) pages it serves, and the database as the list of
persisted rows together with the constraints declared in the schema
(`MULTIPOLYGON`-typed geometry column, unique `bin` index).
-/

/-- Untyped property values as they appear in the GeoJSON `properties`
mapping: the JSON scalars Python hands to the script (the feed's property
values are scalars).  Numeric values are split into ints and floats the way
Python keeps them; floats carry exact rationals since no claim performs
float arithmetic (only parsing and truthiness). -/
inductive PVal where
  | null
  | str (s : String)
  | int (n : Int)
  | float (q : Rat)
deriving DecidableEq

/-- Python truthiness, as used in guards like `if props.get('bin')`:
`None`, `""`, `0` and `0.0` are falsy. -/
def pythonTruthy : PVal → Bool
  | PVal.null => false
  | PVal.str s => decide (s ≠ "")
  | PVal.int n => decide (n ≠ 0)
  | PVal.float q => decide (q ≠ 0)

def digitsToNat (cs : List Char) : Nat :=
  cs.foldl (fun a c => a * 10 + (c.toNat - 48)) 0

def allDigits (cs : List Char) : Bool :=
  decide (cs ≠ []) && cs.all Char.isDigit

/-- Model of Python `int(s)` on a string: an optional sign followed by
digits; anything else (e.g. `"N/A"`, `"12.7"`) raises `ValueError`,
modelled as `none`. -/
def parseIntStr (s : String) : Option Int :=
  match s.toList with
  | '-' :: rest => if allDigits rest then some (-(digitsToNat rest : Int)) else none
  | '+' :: rest => if allDigits rest then some ((digitsToNat rest : Int)) else none
  | cs => if allDigits cs then some ((digitsToNat cs : Int)) else none

def parseUnsignedFloat (cs : List Char) : Option Rat :=
  let intPart := cs.takeWhile Char.isDigit
  match cs.dropWhile Char.isDigit with
  | [] => if intPart.isEmpty then none else some ((digitsToNat intPart : Rat))
  | '.' :: frac =>
    if frac.all Char.isDigit && !(intPart.isEmpty && frac.isEmpty) then
      some ((digitsToNat intPart : Rat) + (digitsToNat frac : Rat) / ((10 : Rat) ^ frac.length))
    else none
  | _ => none

/-- Model of Python `float(s)` on a string: optional sign, digits with an
optional decimal point; `"N/A"` raises `ValueError`, modelled as `none`. -/
def parseFloatStr (s : String) : Option Rat :=
  match s.toList with
  | '-' :: rest => (parseUnsignedFloat rest).map (fun q => -q)
  | '+' :: rest => parseUnsignedFloat rest
  | cs => parseUnsignedFloat cs

/-- Python `int(q)` on a float truncates toward zero. -/
def ratTruncToInt (q : Rat) : Int := q.num.tdiv (q.den : Int)

/-- The coercion pattern of `process_feature` for the integer fields:
`int(props.get(k)) if props.get(k) else None`, with `ValueError` caught
and resolved to `None`.  The guard means a falsy raw value (absent, null,
`""`, `0`, `0.0`) resolves to `None` before any conversion is tried. -/
def coerceInt (v : PVal) : Option Int :=
  if pythonTruthy v then
    match v with
    | PVal.null => none
    | PVal.str s => parseIntStr s
    | PVal.int n => some n
    | PVal.float q => some (ratTruncToInt q)
  else none

/-- The coercion pattern of `process_feature` for `height_roof`:
`float(props.get(k)) if props.get(k) else None`, `ValueError` → `None`. -/
def coerceFloat (v : PVal) : Option Rat :=
  if pythonTruthy v then
    match v with
    | PVal.null => none
    | PVal.str s => parseFloatStr s
    | PVal.int n => some ((n : Rat))
    | PVal.float q => some q
  else none

/-- Coordinates are abstracted to integer pairs: no claim depends on
coordinate numerics, only on geometry structure and geometry type. -/
abbrev Coord := Int × Int

/-- A GeoJSON geometry object as received from the feed.  `invalid` stands
for a geometry dict that `shapely.geometry.shape` rejects outright
(unknown type tag or a malformed coordinate structure). -/
inductive GeoJson where
  | point (c : Coord)
  | lineString (cs : List Coord)
  | polygon (rings : List (List Coord))
  | multiPolygon (polys : List (List (List Coord)))
  | invalid (tag : String)
deriving DecidableEq

/-- A shapely geometry object, the result of a successful `shape(...)`. -/
inductive SGeom where
  | point (c : Coord)
  | lineString (cs : List Coord)
  | polygon (rings : List (List Coord))
  | multiPolygon (polys : List (List (List Coord)))
deriving DecidableEq

/-- shapely requires a linear ring to have at least 3 coordinate tuples
(it closes the ring itself); a shorter non-degenerate ring raises. -/
def validRing (r : List Coord) : Bool := decide (3 ≤ r.length)

/-- `shapely.geometry.shape`: parses a GeoJSON geometry object, raising on
malformed input.  It never changes the geometry type: a polygon parses to
a polygon, a point to a point. -/
def shape : GeoJson → Except String SGeom
  | GeoJson.point c => Except.ok (SGeom.point c)
  | GeoJson.lineString cs =>
    if cs.length = 1 then Except.error "LineString needs at least 2 coordinates"
    else Except.ok (SGeom.lineString cs)
  | GeoJson.polygon rings =>
    if rings.all validRing then Except.ok (SGeom.polygon rings)
    else Except.error "A LinearRing must have at least 3 coordinate tuples"
  | GeoJson.multiPolygon polys =>
    if polys.all (fun p => p.all validRing) then Except.ok (SGeom.multiPolygon polys)
    else Except.error "A LinearRing must have at least 3 coordinate tuples"
  | GeoJson.invalid t => Except.error ("Unknown geometry type: " ++ t)

/-- The WKT type tag of `shapely_geom.wkt`, the encoding under which the
geometry is written to the `geom` column. -/
def wktTag : SGeom → String
  | SGeom.point _ => "POINT"
  | SGeom.lineString _ => "LINESTRING"
  | SGeom.polygon _ => "POLYGON"
  | SGeom.multiPolygon _ => "MULTIPOLYGON"

/-- A GeoJSON feature: a `properties` mapping and a `geometry` object. -/
structure Feature where
  properties : List (String × PVal)
  geometry : GeoJson
deriving DecidableEq

/-- `props.get(k)`: the value at key `k`, or `None` when the key is absent
(Python's `dict.get` default). -/
def getProp (props : List (String × PVal)) (k : String) : PVal :=
  (props.lookup k).getD PVal.null

/-- The natural key of a feature: `f['properties'].get('bin')`. -/
def binOf (f : Feature) : PVal := getProp f.properties "bin"

/-- The `NycBuilding` ORM row of `main.py` (the surrogate `id` column is
assigned by the store and irrelevant to every claim).  `geom` holds the
shapely geometry whose WKT string is what is actually written. -/
structure NycBuilding where
  bin : PVal
  base_bbl : PVal
  construction_year : Option Int
  height_roof : Option Rat
  doitt_id : Option Int
  raw_properties : List (String × PVal)
  geom : SGeom
deriving DecidableEq

/-- The row constructed at the end of `process_feature`. -/
def mkBuilding (feature : Feature) (shapely_geom : SGeom) : NycBuilding :=
  { bin := getProp feature.properties "bin"
    base_bbl := getProp feature.properties "base_bbl"
    construction_year := coerceInt (getProp feature.properties "construction_year")
    height_roof := coerceFloat (getProp feature.properties "height_roof")
    doitt_id := coerceInt (getProp feature.properties "doitt_id")
    raw_properties := feature.properties
    geom := shapely_geom }

/-- `process_feature`: converts a GeoJSON feature into a DB object.  The
only fallible step is `shape(geo)`; its exception is not caught anywhere
in `main.py`, so it is surfaced as an `Except.error`. -/
def process_feature (feature : Feature) : Except String NycBuilding :=
  match shape feature.geometry with
  | Except.error e => Except.error e
  | Except.ok shapely_geom => Except.ok (mkBuilding feature shapely_geom)

/-- The persisted table, in insertion order. -/
structure Db where
  rows : List NycBuilding
deriving DecidableEq

/-- Whether some persisted row has natural key `b`. -/
def dbHasBin (db : Db) (b : PVal) : Bool :=
  db.rows.any (fun r => decide (r.bin = b))

/-- `batch_bins = [f['properties'].get('bin') for f in features if
f['properties'].get('bin')]`: the truthy keys of the page, in order. -/
def batchBins (features : List Feature) : List PVal :=
  features.filterMap (fun f => if pythonTruthy (binOf f) then some (binOf f) else none)

/-- `session.query(NycBuilding.bin).filter(NycBuilding.bin.in_(bins))`:
the keys of the persisted rows whose key occurs in `bins`.  `bins` (from
`batchBins`) contains no SQL NULL, so Lean equality coincides with the SQL
`IN` predicate here. -/
def dbQueryBins (db : Db) (bins : List PVal) : List PVal :=
  (db.rows.filter (fun r => decide (r.bin ∈ bins))).map (fun r => r.bin)

/-- The initial `existing_bins` set for a page (`set()` when the page has
no truthy key, since the query is skipped and would return nothing). -/
def pageExisting (db : Db) (features : List Feature) : List PVal :=
  dbQueryBins db (batchBins features)

/-- The accept/suppress decisions of the `for feat in features` loop
(lines 130-137): accept when the key is not in the set, then add the key
to the set.  The decisions are independent of `process_feature`'s results,
so they are factored out of the object construction. -/
def selectNew (existing : List PVal) : List Feature → List Feature
  | [] => []
  | f :: rest =>
    if binOf f ∈ existing then selectNew existing rest
    else f :: selectNew (binOf f :: existing) rest

/-- The `for feat in features` loop itself: the accepted features are run
through `process_feature` in page order, and an exception from
`process_feature` aborts the loop (it is caught nowhere). -/
def buildObjects (existing : List PVal) : List Feature → Except String (List NycBuilding)
  | [] => Except.ok []
  | f :: rest =>
    if binOf f ∈ existing then buildObjects existing rest
    else
      match process_feature f with
      | Except.error e => Except.error e
      | Except.ok obj =>
        match buildObjects (binOf f :: existing) rest with
        | Except.error e => Except.error e
        | Except.ok objs => Except.ok (obj :: objs)

/-- The filtered batch of a page: dedup state initialised from the
per-page storage query, then the feature loop. -/
def pageBatch (db : Db) (features : List Feature) : Except String (List NycBuilding) :=
  buildObjects (pageExisting db features) features

/-- Whether two rows of the batch collide on a non-null key (the unique
index on `bin` exempts SQL NULLs). -/
def batchDupBin : List NycBuilding → Bool
  | [] => false
  | o :: rest =>
    (decide (o.bin ≠ PVal.null) && rest.any (fun p => decide (p.bin = o.bin)))
      || batchDupBin rest

/-- The store's constraints as declared in `main.py`'s schema: the `geom`
column is typed `MULTIPOLYGON` (a value of any other WKT type is
rejected), and `bin` carries a unique index (NULLs exempt).  `session.commit()`
fails exactly when some row of the batch violates one of them. -/
def commitViolates (db : Db) (objs : List NycBuilding) : Bool :=
  objs.any (fun o => decide (wktTag o.geom ≠ "MULTIPOLYGON"))
    || objs.any (fun o => decide (o.bin ≠ PVal.null) && dbHasBin db o.bin)
    || batchDupBin objs

/-- `BATCH_SIZE = 1000`. -/
def BATCH_SIZE : Nat := 1000

/-- The mutable state of `run_scraper`'s loop, plus observation counters:
`fetches` and `fetched_offsets` record the requests made, `db_queries` the
per-page duplicate-lookup queries issued, `commit_failures` the logged
rollbacks, and `crashed` the message of an uncaught exception (which in
the script kills the process). -/
structure LoopState where
  db : Db
  total_inserted : Nat
  offset : Nat
  fetches : Nat
  fetched_offsets : List Nat
  db_queries : Nat
  commit_failures : Nat
  crashed : Option String
deriving DecidableEq

/-- Issue the HTTP GET for the current offset (records the request). -/
def fetchMark (st : LoopState) : LoopState :=
  { st with fetches := st.fetches + 1
            fetched_offsets := st.fetched_offsets ++ [st.offset] }

/-- One non-empty page of the `while True` body, from `batch_bins` to
`offset += BATCH_SIZE`: query duplicates (skipped when `batch_bins` is
empty), build the filtered batch (an uncaught geometry exception stops
everything before the offset advances), then commit it, rolling back and
logging on a constraint violation. -/
def stepPage (st : LoopState) (features : List Feature) : LoopState :=
  let dq := st.db_queries + (if (batchBins features).isEmpty then 0 else 1)
  match pageBatch st.db features with
  | Except.error e => { st with crashed := some e, db_queries := dq }
  | Except.ok objs =>
    if objs.isEmpty then
      { st with db_queries := dq, offset := st.offset + BATCH_SIZE }
    else if commitViolates st.db objs then
      { st with db_queries := dq
                commit_failures := st.commit_failures + 1
                offset := st.offset + BATCH_SIZE }
    else
      { st with db_queries := dq
                db := Db.mk (st.db.rows ++ objs)
                total_inserted := st.total_inserted + objs.length
                offset := st.offset + BATCH_SIZE }

/-- The `while True` fetch loop.  The source is modelled as the list of
non-exhausted pages it serves in offset order; once the list is exhausted
the source answers with an empty feature collection, which is the `break`
at line 116.  An empty page inside the list likewise breaks, and an
uncaught exception from page processing aborts the loop. -/
def runFrom : List (List Feature) → LoopState → LoopState
  | [], st => fetchMark st
  | page :: rest, st =>
    let st1 := fetchMark st
    if page.isEmpty then st1
    else
      let st2 := stepPage st1 page
      if st2.crashed.isSome then st2
      else runFrom rest st2

/-- `run_scraper()` against a source serving `pages` and a store holding
`db0`: offset and counters start at zero. -/
def runScraper (pages : List (List Feature)) (db0 : Db) : LoopState :=
  runFrom pages (LoopState.mk db0 0 0 0 [] 0 0 none)

/-! ### Basic inversion lemmas -/

theorem except_isOk_exists {α β : Type} {e : Except β α} (h : e.isOk = true) :
    ∃ a, e = Except.ok a := by
  cases e with
  | error b => simp [Except.isOk, Except.toBool] at h
  | ok a => exact ⟨a, rfl⟩

theorem process_feature_ok_inv {f : Feature} {o : NycBuilding}
    (h : process_feature f = Except.ok o) :
    ∃ g, shape f.geometry = Except.ok g ∧ o = mkBuilding f g := by
  unfold process_feature at h
  cases hs : shape f.geometry with
  | error e => rw [hs] at h; cases h
  | ok g => rw [hs] at h; injection h with h; exact ⟨g, rfl, h.symm⟩

theorem process_feature_of_shape {f : Feature} {g : SGeom}
    (hs : shape f.geometry = Except.ok g) :
    process_feature f = Except.ok (mkBuilding f g) := by
  unfold process_feature; rw [hs]

theorem mkBuilding_bin (f : Feature) (g : SGeom) : (mkBuilding f g).bin = binOf f := rfl

/-! ### Lemmas about the duplicate filter's decisions -/

theorem selectNew_sublist (E : List PVal) (fs : List Feature) :
    (selectNew E fs).Sublist fs := by
  induction fs generalizing E with
  | nil => simp [selectNew]
  | cons f rest ih =>
    by_cases h : binOf f ∈ E
    · simp only [selectNew, if_pos h]
      exact (ih E).cons f
    · simp only [selectNew, if_neg h]
      exact (ih (binOf f :: E)).cons₂ f

theorem selectNew_bins_nodup_fresh (fs : List Feature) (E : List PVal) :
    ((selectNew E fs).map binOf).Nodup ∧ ∀ b ∈ (selectNew E fs).map binOf, b ∉ E := by
  induction fs generalizing E with
  | nil => simp [selectNew]
  | cons f rest ih =>
    by_cases h : binOf f ∈ E
    · simpa only [selectNew, if_pos h] using ih E
    · have ihh := ih (binOf f :: E)
      simp only [selectNew, if_neg h, List.map_cons, List.nodup_cons]
      refine ⟨⟨fun hmem => (ihh.2 _ hmem) (List.mem_cons_self _ _), ihh.1⟩, ?_⟩
      intro b hb
      rcases List.mem_cons.1 hb with rfl | hb
      · exact h
      · intro hbE
        exact (ihh.2 b hb) (List.mem_cons_of_mem _ hbE)

theorem selectNew_covers {fs : List Feature} {f : Feature} (E : List PVal) (hf : f ∈ fs) :
    binOf f ∈ E ∨ binOf f ∈ (selectNew E fs).map binOf := by
  induction fs generalizing E with
  | nil => cases hf
  | cons g rest ih =>
    by_cases h : binOf g ∈ E
    · simp only [selectNew, if_pos h]
      rcases List.mem_cons.1 hf with rfl | hf
      · exact Or.inl h
      · exact ih E hf
    · simp only [selectNew, if_neg h, List.map_cons]
      rcases List.mem_cons.1 hf with rfl | hf
      · exact Or.inr (List.mem_cons_self _ _)
      · rcases ih (binOf g :: E) hf with hmem | hmem
        · rcases List.mem_cons.1 hmem with heq | hmem
          · exact Or.inr (heq ▸ List.mem_cons_self _ _)
          · exact Or.inl hmem
        · exact Or.inr (List.mem_cons_of_mem _ hmem)

theorem selectNew_nil_of_all_mem {fs : List Feature} {E : List PVal}
    (h : ∀ f ∈ fs, binOf f ∈ E) : selectNew E fs = [] := by
  induction fs with
  | nil => rfl
  | cons f rest ih =>
    simp only [selectNew, if_pos (h f (List.mem_cons_self _ _))]
    exact ih fun g hg => h g (List.mem_cons_of_mem _ hg)

/-! ### Lemmas about the page loop's object construction -/

theorem buildObjects_ok_forall2 {fs : List Feature} {E : List PVal} {objs : List NycBuilding}
    (h : buildObjects E fs = Except.ok objs) :
    List.Forall₂ (fun f o => process_feature f = Except.ok o) (selectNew E fs) objs := by
  induction fs generalizing E objs with
  | nil =>
    simp only [buildObjects] at h
    injection h with h
    subst h
    exact List.Forall₂.nil
  | cons f rest ih =>
    by_cases hm : binOf f ∈ E
    · simp only [buildObjects, if_pos hm] at h
      simp only [selectNew, if_pos hm]
      exact ih h
    · simp only [buildObjects, if_neg hm] at h
      cases hp : process_feature f with
      | error e => rw [hp] at h; cases h
      | ok obj =>
        rw [hp] at h
        cases hb : buildObjects (binOf f :: E) rest with
        | error e => rw [hb] at h; cases h
        | ok objs' =>
          rw [hb] at h
          injection h with h
          subst h
          simp only [selectNew, if_neg hm]
          exact List.Forall₂.cons hp (ih hb)

theorem buildObjects_ok_of_nil_select {fs : List Feature} {E : List PVal}
    (h : selectNew E fs = []) : buildObjects E fs = Except.ok [] := by
  induction fs generalizing E with
  | nil => rfl
  | cons f rest ih =>
    by_cases hm : binOf f ∈ E
    · simp only [selectNew, if_pos hm] at h
      simp only [buildObjects, if_pos hm]
      exact ih h
    · simp only [selectNew, if_neg hm] at h
      cases h

theorem buildObjects_isOk {fs : List Feature} (E : List PVal)
    (h : ∀ f ∈ fs, (shape f.geometry).isOk = true) :
    ∃ objs, buildObjects E fs = Except.ok objs := by
  induction fs generalizing E with
  | nil => exact ⟨[], rfl⟩
  | cons f rest ih =>
    by_cases hm : binOf f ∈ E
    · obtain ⟨objs, hobjs⟩ := ih E (fun g hg => h g (List.mem_cons_of_mem _ hg))
      exact ⟨objs, by simp only [buildObjects, if_pos hm]; exact hobjs⟩
    · obtain ⟨g, hg⟩ := except_isOk_exists (h f (List.mem_cons_self _ _))
      obtain ⟨objs, hobjs⟩ := ih (binOf f :: E) (fun g hg => h g (List.mem_cons_of_mem _ hg))
      refine ⟨mkBuilding f g :: objs, ?_⟩
      simp only [buildObjects, if_neg hm, process_feature_of_shape hg, hobjs]

/-! ### Characterizing the per-page duplicate query -/

theorem batchBins_truthy {b : PVal} {fs : List Feature} (h : b ∈ batchBins fs) :
    pythonTruthy b = true := by
  simp only [batchBins, List.mem_filterMap] at h
  obtain ⟨f, _, hf⟩ := h
  by_cases ht : pythonTruthy (binOf f) = true
  · rw [if_pos ht] at hf
    injection hf with hf
    exact hf ▸ ht
  · rw [if_neg ht] at hf
    cases hf

theorem mem_batchBins_of {f : Feature} {fs : List Feature} (hf : f ∈ fs)
    (ht : pythonTruthy (binOf f) = true) : binOf f ∈ batchBins fs := by
  simp only [batchBins, List.mem_filterMap]
  exact ⟨f, hf, by rw [if_pos ht]⟩

theorem mem_pageExisting_iff {b : PVal} {db : Db} {fs : List Feature} :
    b ∈ pageExisting db fs ↔ dbHasBin db b = true ∧ b ∈ batchBins fs := by
  simp only [pageExisting, dbQueryBins, List.mem_map, List.mem_filter, dbHasBin,
    List.any_eq_true, decide_eq_true_eq]
  constructor
  · rintro ⟨r, ⟨hr, hrb⟩, rfl⟩
    exact ⟨⟨r, hr, rfl⟩, hrb⟩
  · rintro ⟨⟨r, hr, hrb⟩, hb⟩
    exact ⟨r, ⟨hr, hrb ▸ hb⟩, hrb⟩

theorem binOf_mem_pageExisting {f : Feature} {fs : List Feature} {db : Db} (hf : f ∈ fs) :
    binOf f ∈ pageExisting db fs
      ↔ (pythonTruthy (binOf f) = true ∧ dbHasBin db (binOf f) = true) := by
  rw [mem_pageExisting_iff]
  constructor
  · rintro ⟨hhas, hmem⟩
    exact ⟨batchBins_truthy hmem, hhas⟩
  · rintro ⟨ht, hhas⟩
    exact ⟨hhas, mem_batchBins_of hf ht⟩

/-! ### The filter as the specification words it -/

/-- Modelled from the spec's words, for comparison with the code's filter:
"the subsequence of the page's records whose keys are neither persisted nor
already accepted this page, in original order" (`persisted` is the
claim's notion of a persisted key, `accepted` the keys accepted so far). -/
def specFilter (persisted : PVal → Bool) (accepted : List PVal) : List Feature → List Feature
  | [] => []
  | f :: rest =>
    if persisted (binOf f) = true ∨ binOf f ∈ accepted then specFilter persisted accepted rest
    else f :: specFilter persisted (binOf f :: accepted) rest

theorem selectNew_eq_specFilter_aux {fs : List Feature} {E acc : List PVal} {p : PVal → Bool}
    (h : ∀ f ∈ fs, binOf f ∈ E ↔ (p (binOf f) = true ∨ binOf f ∈ acc)) :
    selectNew E fs = specFilter p acc fs := by
  induction fs generalizing E acc with
  | nil => rfl
  | cons f rest ih =>
    by_cases hm : binOf f ∈ E
    · rw [selectNew, if_pos hm, specFilter, if_pos ((h f (List.mem_cons_self _ _)).1 hm)]
      exact ih fun g hg => h g (List.mem_cons_of_mem _ hg)
    · rw [selectNew, if_neg hm, specFilter,
        if_neg (fun hc => hm ((h f (List.mem_cons_self _ _)).2 hc))]
      congr 1
      refine ih fun g hg => ?_
      have hgen := h g (List.mem_cons_of_mem _ hg)
      constructor
      · intro hgm
        rcases List.mem_cons.1 hgm with heq | hgm
        · exact Or.inr (heq ▸ List.mem_cons_self _ _)
        · rcases hgen.1 hgm with hp | hacc
          · exact Or.inl hp
          · exact Or.inr (List.mem_cons_of_mem _ hacc)
      · intro hc
        rcases hc with hp | hacc
        · exact List.mem_cons_of_mem _ (hgen.2 (Or.inl hp))
        · rcases List.mem_cons.1 hacc with heq | hacc
          · exact heq ▸ List.mem_cons_self _ _
          · exact List.mem_cons_of_mem _ (hgen.2 (Or.inr hacc))

theorem selectNew_eq_specFilter (db : Db) (page : List Feature) :
    selectNew (pageExisting db page) page
      = specFilter (fun b => pythonTruthy b && dbHasBin db b) [] page := by
  refine selectNew_eq_specFilter_aux fun f hf => ?_
  rw [binOf_mem_pageExisting hf]
  simp [Bool.and_eq_true]

/-! ### Commit-constraint lemmas -/

theorem batchDupBin_false_of_nodup {objs : List NycBuilding}
    (h : (objs.map (fun o => o.bin)).Nodup) : batchDupBin objs = false := by
  induction objs with
  | nil => rfl
  | cons o rest ih =>
    simp only [List.map_cons, List.nodup_cons] at h
    simp only [batchDupBin, Bool.or_eq_false_iff, Bool.and_eq_false_iff]
    refine ⟨?_, ih h.2⟩
    right
    simp only [List.any_eq_false, decide_eq_true_eq]
    intro p hp hpb
    exact h.1 (hpb ▸ List.mem_map_of_mem (fun o => o.bin) hp)

theorem commitViolates_false {db : Db} {objs : List NycBuilding}
    (hgeom : ∀ o ∈ objs, wktTag o.geom = "MULTIPOLYGON")
    (hfresh : ∀ o ∈ objs, dbHasBin db o.bin = false)
    (hnodup : (objs.map (fun o => o.bin)).Nodup) :
    commitViolates db objs = false := by
  simp only [commitViolates, Bool.or_eq_false_iff]
  refine ⟨⟨?_, ?_⟩, batchDupBin_false_of_nodup hnodup⟩
  · simp only [List.any_eq_false, decide_eq_true_eq]
    intro o ho
    simp [hgeom o ho]
  · simp only [List.any_eq_false]
    intro o ho
    simp [hfresh o ho]

/-! ### Structural lemmas about the fetch loop -/

theorem stepPage_of_error {st : LoopState} {page : List Feature} {e : String}
    (h : pageBatch st.db page = Except.error e) :
    stepPage st page
      = { st with crashed := some e
                  db_queries := st.db_queries + (if (batchBins page).isEmpty then 0 else 1) } := by
  simp only [stepPage, h]

theorem stepPage_of_ok {st : LoopState} {page : List Feature} {objs : List NycBuilding}
    (h : pageBatch st.db page = Except.ok objs) :
    (stepPage st page).crashed = st.crashed
    ∧ (stepPage st page).offset = st.offset + BATCH_SIZE
    ∧ (stepPage st page).fetches = st.fetches
    ∧ (stepPage st page).fetched_offsets = st.fetched_offsets
    ∧ (stepPage st page).total_inserted
        = st.total_inserted + (if commitViolates st.db objs then 0 else objs.length)
          - (if objs.isEmpty then objs.length else 0) := by
  simp only [stepPage, h]
  by_cases he : objs.isEmpty
  · have : objs = [] := by cases objs with | nil => rfl | cons o t => cases he
    subst this
    simp [he]
  · simp only [if_neg he]
    by_cases hv : commitViolates st.db objs
    · simp [hv, he]
    · simp [hv, he]

theorem stepPage_fields {st : LoopState} (page : List Feature) :
    (stepPage st page).fetches = st.fetches
    ∧ (stepPage st page).fetched_offsets = st.fetched_offsets := by
  cases h : pageBatch st.db page with
  | error e => rw [stepPage_of_error h]; exact ⟨rfl, rfl⟩
  | ok objs => exact ⟨(stepPage_of_ok h).2.2.1, (stepPage_of_ok h).2.2.2.1⟩

theorem stepPage_db_queries (st : LoopState) (page : List Feature) :
    (stepPage st page).db_queries
      = st.db_queries + (if (batchBins page).isEmpty then 0 else 1) := by
  cases h : pageBatch st.db page with
  | error e => rw [stepPage_of_error h]
  | ok objs =>
    simp only [stepPage, h]
    by_cases he : objs.isEmpty
    · simp [he]
    · by_cases hv : commitViolates st.db objs
      · simp [he, hv]
      · simp [he, hv]

theorem stepPage_rows_extend (st : LoopState) (page : List Feature) :
    ∃ ext, (stepPage st page).db.rows = st.db.rows ++ ext := by
  cases h : pageBatch st.db page with
  | error e => rw [stepPage_of_error h]; exact ⟨[], by simp⟩
  | ok objs =>
    simp only [stepPage, h]
    by_cases he : objs.isEmpty
    · exact ⟨[], by simp [he]⟩
    · by_cases hv : commitViolates st.db objs
      · exact ⟨[], by simp [he, hv]⟩
      · exact ⟨objs, by simp [he, hv]⟩

theorem fetchMark_fields (st : LoopState) :
    (fetchMark st).db = st.db ∧ (fetchMark st).offset = st.offset
    ∧ (fetchMark st).crashed = st.crashed
    ∧ (fetchMark st).total_inserted = st.total_inserted
    ∧ (fetchMark st).fetches = st.fetches + 1
    ∧ (fetchMark st).fetched_offsets = st.fetched_offsets ++ [st.offset] := by
  simp [fetchMark]

theorem runFrom_nil (st : LoopState) : runFrom [] st = fetchMark st := rfl

theorem runFrom_cons_empty {page : List Feature} (rest : List (List Feature)) (st : LoopState)
    (h : page = []) : runFrom (page :: rest) st = fetchMark st := by
  subst h
  simp [runFrom]

theorem runFrom_cons_crash {page : List Feature} (rest : List (List Feature)) (st : LoopState)
    (hne : page ≠ []) (hcr : (stepPage (fetchMark st) page).crashed.isSome = true) :
    runFrom (page :: rest) st = stepPage (fetchMark st) page := by
  simp only [runFrom]
  rw [if_neg (by simpa using hne), if_pos hcr]

theorem runFrom_cons_go {page : List Feature} (rest : List (List Feature)) (st : LoopState)
    (hne : page ≠ []) (hcr : (stepPage (fetchMark st) page).crashed.isSome = false) :
    runFrom (page :: rest) st = runFrom rest (stepPage (fetchMark st) page) := by
  simp only [runFrom]
  rw [if_neg (by simpa using hne), if_neg (by simp [hcr])]

theorem runFrom_rows_extend (pages : List (List Feature)) (st : LoopState) :
    ∃ ext, (runFrom pages st).db.rows = st.db.rows ++ ext := by
  induction pages generalizing st with
  | nil => exact ⟨[], by simp [runFrom_nil, fetchMark]⟩
  | cons page rest ih =>
    by_cases hne : page = []
    · exact ⟨[], by simp [runFrom_cons_empty rest st hne, fetchMark]⟩
    · cases hcr : (stepPage (fetchMark st) page).crashed.isSome with
      | true =>
        rw [runFrom_cons_crash rest st hne hcr]
        obtain ⟨ext, hext⟩ := stepPage_rows_extend (fetchMark st) page
        exact ⟨ext, by rw [hext]; simp [fetchMark]⟩
      | false =>
        rw [runFrom_cons_go rest st hne hcr]
        obtain ⟨ext1, hext1⟩ := stepPage_rows_extend (fetchMark st) page
        obtain ⟨ext2, hext2⟩ := ih (stepPage (fetchMark st) page)
        exact ⟨ext1 ++ ext2, by rw [hext2, hext1]; simp [fetchMark, List.append_assoc]⟩

theorem dbHasBin_extend {rows ext : List NycBuilding} {b : PVal}
    (h : dbHasBin (Db.mk rows) b = true) : dbHasBin (Db.mk (rows ++ ext)) b = true := by
  simp only [dbHasBin, List.any_eq_true] at h ⊢
  obtain ⟨r, hr, hb⟩ := h
  exact ⟨r, List.mem_append_left _ hr, hb⟩

/-! ### Well-keyed, well-shaped features (the clean-feed hypothesis) -/

/-- A feature with a truthy natural key and a geometry that parses as a
multi-polygon — the shape every record of the actual feed is meant to
have. -/
def goodFeature (f : Feature) : Bool :=
  pythonTruthy (binOf f)
    && (match shape f.geometry with
        | Except.ok g => decide (wktTag g = "MULTIPOLYGON")
        | Except.error _ => false)

theorem goodFeature_shape {f : Feature} (h : goodFeature f = true) :
    pythonTruthy (binOf f) = true
    ∧ ∃ g, shape f.geometry = Except.ok g ∧ wktTag g = "MULTIPOLYGON" := by
  simp only [goodFeature, Bool.and_eq_true] at h
  refine ⟨h.1, ?_⟩
  have h2 := h.2
  cases hs : shape f.geometry with
  | error e => rw [hs] at h2; cases h2
  | ok g => rw [hs] at h2; exact ⟨g, rfl, by simpa using h2⟩

theorem forall2_objs_mem {sel : List Feature} {objs : List NycBuilding}
    (h : List.Forall₂ (fun f o => process_feature f = Except.ok o) sel objs) :
    ∀ o ∈ objs, ∃ f ∈ sel, process_feature f = Except.ok o := by
  induction h with
  | nil => intro o ho; cases ho
  | @cons f o sel' objs' hfo htail ih =>
    intro p hp
    rcases List.mem_cons.1 hp with rfl | hp
    · exact ⟨f, List.mem_cons_self _ _, hfo⟩
    · obtain ⟨g, hg, hpg⟩ := ih p hp
      exact ⟨g, List.mem_cons_of_mem _ hg, hpg⟩

theorem forall2_bins_eq {sel : List Feature} {objs : List NycBuilding}
    (h : List.Forall₂ (fun f o => process_feature f = Except.ok o) sel objs) :
    objs.map (fun o => o.bin) = sel.map binOf := by
  induction h with
  | nil => rfl
  | @cons f o sel' objs' hfo htail ih =>
    obtain ⟨g, -, rfl⟩ := process_feature_ok_inv hfo
    simp only [List.map_cons, mkBuilding_bin, ih]

theorem dbHasBin_mono {d1 d2 : Db} {b : PVal} (hext : ∃ ext, d2.rows = d1.rows ++ ext)
    (h : dbHasBin d1 b = true) : dbHasBin d2 b = true := by
  obtain ⟨ext, hext⟩ := hext
  simp only [dbHasBin, List.any_eq_true] at h ⊢
  obtain ⟨r, hr, hb⟩ := h
  exact ⟨r, hext ▸ List.mem_append_left _ hr, hb⟩

theorem dbHasBin_of_mem {d : Db} {o : NycBuilding} (ho : o ∈ d.rows) :
    dbHasBin d o.bin = true := by
  simp only [dbHasBin, List.any_eq_true]
  exact ⟨o, ho, by simp⟩

/-- A batch built from a page of good features never violates the store's
constraints, and the committed rows cover every key of the page. -/
theorem pageBatch_good {db : Db} {page : List Feature} {objs : List NycBuilding}
    (hgood : ∀ f ∈ page, goodFeature f = true)
    (h : pageBatch db page = Except.ok objs) :
    commitViolates db objs = false
    ∧ ∀ f ∈ page, dbHasBin db (binOf f) = true ∨ (∃ o ∈ objs, o.bin = binOf f) := by
  have hf2 := buildObjects_ok_forall2 h
  have hbins := forall2_bins_eq hf2
  have hnd := selectNew_bins_nodup_fresh page (pageExisting db page)
  have hsub := selectNew_sublist (pageExisting db page) page
  have hmemobjs := forall2_objs_mem hf2
  have hofacts : ∀ o ∈ objs, wktTag o.geom = "MULTIPOLYGON" ∧ pythonTruthy o.bin = true
      ∧ dbHasBin db o.bin = false := by
    intro o ho
    obtain ⟨f, hfsel, hfo⟩ := hmemobjs o ho
    have hfpage : f ∈ page := hsub.subset hfsel
    obtain ⟨ht, g, hg, htag⟩ := goodFeature_shape (hgood f hfpage)
    obtain ⟨g', hg', rfl⟩ := process_feature_ok_inv hfo
    rw [hg] at hg'
    injection hg' with hg'
    subst hg'
    refine ⟨htag, by rw [mkBuilding_bin]; exact ht, ?_⟩
    by_contra hdb
    have hdb' : dbHasBin db (binOf f) = true := by
      rw [mkBuilding_bin] at hdb
      cases hv : dbHasBin db (binOf f) with
      | false => exact absurd hv hdb
      | true => rfl
    have hinE : binOf f ∈ pageExisting db page := (binOf_mem_pageExisting hfpage).2 ⟨ht, hdb'⟩
    have : binOf f ∈ (selectNew (pageExisting db page) page).map binOf :=
      List.mem_map_of_mem binOf hfsel
    exact (hnd.2 _ this) hinE
  constructor
  · refine commitViolates_false (fun o ho => (hofacts o ho).1) (fun o ho => (hofacts o ho).2.2) ?_
    rw [hbins]
    exact hnd.1
  · intro f hfpage
    rcases selectNew_covers (pageExisting db page) hfpage with hE | hsel
    · exact Or.inl (mem_pageExisting_iff.1 hE).1
    · rw [← hbins] at hsel
      obtain ⟨o, ho, hob⟩ := List.mem_map.1 hsel
      exact Or.inr ⟨o, ho, hob⟩

/-- Processing a page of good features neither crashes nor fails its
commit, and afterwards every key of the page is persisted. -/
theorem stepPage_good {st : LoopState} {page : List Feature}
    (hc : st.crashed = none) (hgood : ∀ f ∈ page, goodFeature f = true) :
    (stepPage st page).crashed = none
    ∧ ∀ f ∈ page, dbHasBin (stepPage st page).db (binOf f) = true := by
  have hshapes : ∀ f ∈ page, (shape f.geometry).isOk = true := by
    intro f hf
    obtain ⟨-, g, hg, -⟩ := goodFeature_shape (hgood f hf)
    simp [hg, Except.isOk, Except.toBool]
  obtain ⟨objs, hobjs⟩ := buildObjects_isOk (pageExisting st.db page) hshapes
  have hpb : pageBatch st.db page = Except.ok objs := hobjs
  have hg := pageBatch_good hgood hpb
  by_cases he : objs.isEmpty
  · have hnil : objs = [] := by cases objs with | nil => rfl | cons o t => cases he
    subst hnil
    have hstep : stepPage st page
        = { st with db_queries := st.db_queries + (if (batchBins page).isEmpty then 0 else 1)
                    offset := st.offset + BATCH_SIZE } := by
      simp [stepPage, hpb]
    rw [hstep]
    refine ⟨hc, fun f hf => ?_⟩
    rcases hg.2 f hf with hdb | ⟨o, ho, -⟩
    · exact hdb
    · cases ho
  · have hstep : stepPage st page
        = { st with db_queries := st.db_queries + (if (batchBins page).isEmpty then 0 else 1)
                    db := Db.mk (st.db.rows ++ objs)
                    total_inserted := st.total_inserted + objs.length
                    offset := st.offset + BATCH_SIZE } := by
      simp [stepPage, hpb, he, hg.1]
    rw [hstep]
    refine ⟨hc, fun f hf => ?_⟩
    rcases hg.2 f hf with hdb | ⟨o, ho, hob⟩
    · exact dbHasBin_mono ⟨objs, rfl⟩ hdb
    · exact hob ▸ dbHasBin_of_mem (List.mem_append_right _ ho)

/-- Run 1 on a source of good pages: no crash, and every key the source
serves is persisted at the end. -/
theorem runFrom_good (pages : List (List Feature)) (st : LoopState)
    (hc : st.crashed = none)
    (hgood : ∀ p ∈ pages, p ≠ [] ∧ ∀ f ∈ p, goodFeature f = true) :
    (runFrom pages st).crashed = none
    ∧ ∀ p ∈ pages, ∀ f ∈ p, dbHasBin (runFrom pages st).db (binOf f) = true := by
  induction pages generalizing st with
  | nil =>
    rw [runFrom_nil]
    exact ⟨by simp [fetchMark, hc], by simp⟩
  | cons page rest ih =>
    have hne := (hgood page (List.mem_cons_self _ _)).1
    have hfc : (fetchMark st).crashed = none := by simp [fetchMark, hc]
    have hstep := stepPage_good hfc (hgood page (List.mem_cons_self _ _)).2
    have hcr : (stepPage (fetchMark st) page).crashed.isSome = false := by simp [hstep.1]
    rw [runFrom_cons_go rest st hne hcr]
    have ihres := ih (stepPage (fetchMark st) page) hstep.1
      (fun p hp => hgood p (List.mem_cons_of_mem _ hp))
    refine ⟨ihres.1, fun p hp f hf => ?_⟩
    rcases List.mem_cons.1 hp with rfl | hp
    · exact dbHasBin_mono (runFrom_rows_extend rest _) (hstep.2 f hf)
    · exact ihres.2 p hp f hf

/-- Run 2: when every key of every page is already persisted (and truthy),
every page is fully suppressed, so nothing is inserted and the store is
unchanged. -/
theorem runFrom_all_dup (pages : List (List Feature)) (st : LoopState)
    (hc : st.crashed = none)
    (hdup : ∀ p ∈ pages, ∀ f ∈ p,
      pythonTruthy (binOf f) = true ∧ dbHasBin st.db (binOf f) = true) :
    (runFrom pages st).total_inserted = st.total_inserted
    ∧ (runFrom pages st).db = st.db := by
  induction pages generalizing st with
  | nil => rw [runFrom_nil]; exact ⟨rfl, rfl⟩
  | cons page rest ih =>
    by_cases hne : page = []
    · rw [runFrom_cons_empty rest st hne]; exact ⟨rfl, rfl⟩
    · have hsel : selectNew (pageExisting st.db page) page = [] :=
        selectNew_nil_of_all_mem fun f hf =>
          (binOf_mem_pageExisting hf).2
            ⟨(hdup page (List.mem_cons_self _ _) f hf).1,
             (hdup page (List.mem_cons_self _ _) f hf).2⟩
      have hpb : pageBatch st.db page = Except.ok [] := buildObjects_ok_of_nil_select hsel
      have hpb' : pageBatch (fetchMark st).db page = Except.ok [] := hpb
      have hstep : stepPage (fetchMark st) page
          = { fetchMark st with
                db_queries := (fetchMark st).db_queries
                  + (if (batchBins page).isEmpty then 0 else 1)
                offset := (fetchMark st).offset + BATCH_SIZE } := by
        simp [stepPage, hpb']
      have hcr : (stepPage (fetchMark st) page).crashed.isSome = false := by
        rw [hstep]; simp [fetchMark, hc]
      rw [runFrom_cons_go rest st hne hcr]
      have hdb2 : (stepPage (fetchMark st) page).db = st.db := by
        rw [hstep]; simp [fetchMark]
      have hti2 : (stepPage (fetchMark st) page).total_inserted = st.total_inserted := by
        rw [hstep]; simp [fetchMark]
      have hc2 : (stepPage (fetchMark st) page).crashed = none := by rw [hstep]; simp [fetchMark, hc]
      have ihres := ih (stepPage (fetchMark st) page) hc2
        (fun p hp f hf => by
          rw [hdb2]
          exact hdup p (List.mem_cons_of_mem _ hp) f hf)
      rw [ihres.1, ihres.2, hdb2, hti2]
      exact ⟨rfl, rfl⟩

theorem stepPage_not_crashed_fields {st : LoopState} {page : List Feature}
    (hc : st.crashed = none) (h : (stepPage st page).crashed.isSome = false) :
    (stepPage st page).crashed = none
    ∧ (stepPage st page).offset = st.offset + BATCH_SIZE
    ∧ (stepPage st page).fetches = st.fetches
    ∧ (stepPage st page).fetched_offsets = st.fetched_offsets := by
  cases hpb : pageBatch st.db page with
  | error e => rw [stepPage_of_error hpb] at h; simp at h
  | ok objs =>
    have hh := stepPage_of_ok hpb
    exact ⟨hh.1.trans hc, hh.2.1, hh.2.2.1, hh.2.2.2.1⟩

/-- The cursor invariant: starting from a state whose cursor sits at
`fetches * BATCH_SIZE` with the offsets so far being consecutive multiples
of the page size, the loop keeps requesting consecutive multiples and ends
with the cursor at the offset of its last fetch. -/
theorem runFrom_offsets (pages : List (List Feature)) (st : LoopState)
    (hc : st.crashed = none)
    (hoff : st.offset = st.fetches * BATCH_SIZE)
    (hlist : st.fetched_offsets = (List.range st.fetches).map (fun k => k * BATCH_SIZE)) :
    (runFrom pages st).fetched_offsets
      = (List.range (runFrom pages st).fetches).map (fun k => k * BATCH_SIZE)
    ∧ (runFrom pages st).offset = ((runFrom pages st).fetches - 1) * BATCH_SIZE := by
  induction pages generalizing st with
  | nil =>
    rw [runFrom_nil]
    refine ⟨?_, ?_⟩
    · simp [fetchMark, List.range_succ, hlist, hoff]
    · simp [fetchMark, hoff]
  | cons page rest ih =>
    by_cases hne : page = []
    · rw [runFrom_cons_empty rest st hne]
      refine ⟨?_, ?_⟩
      · simp [fetchMark, List.range_succ, hlist, hoff]
      · simp [fetchMark, hoff]
    · have hfc : (fetchMark st).crashed = none := by simp [fetchMark, hc]
      cases hcr : (stepPage (fetchMark st) page).crashed.isSome with
      | true =>
        rw [runFrom_cons_crash rest st hne hcr]
        cases hpb : pageBatch (fetchMark st).db page with
        | ok objs =>
          have := (stepPage_of_ok hpb).1.trans hfc
          rw [this] at hcr
          simp at hcr
        | error e =>
          rw [stepPage_of_error hpb]
          refine ⟨?_, ?_⟩
          · simp [fetchMark, List.range_succ, hlist, hoff]
          · simp [fetchMark, hoff]
      | false =>
        rw [runFrom_cons_go rest st hne hcr]
        have hh := stepPage_not_crashed_fields hfc hcr
        refine ih (stepPage (fetchMark st) page) hh.1 ?_ ?_
        · rw [hh.2.1, hh.2.2.1]
          simp [fetchMark, hoff, Nat.succ_mul]
        · rw [hh.2.2.2, hh.2.2.1]
          simp [fetchMark, List.range_succ, hlist, hoff]

/-! ### Key-less records in the page loop -/

theorem buildObjects_keyless_count_aux {fs : List Feature} {E : List PVal}
    {objs : List NycBuilding} (h : buildObjects E fs = Except.ok objs) :
    objs.countP (fun o => decide (o.bin = PVal.null))
      = if PVal.null ∈ E then 0
        else min (fs.countP (fun f => decide (binOf f = PVal.null))) 1 := by
  induction fs generalizing E objs with
  | nil =>
    simp only [buildObjects] at h
    injection h with h
    subst h
    simp
  | cons f rest ih =>
    by_cases hm : binOf f ∈ E
    · simp only [buildObjects, if_pos hm] at h
      rw [ih h]
      by_cases hE : PVal.null ∈ E
      · simp [hE]
      · have hfb : binOf f ≠ PVal.null := fun hq => hE (hq ▸ hm)
        simp [hE, List.countP_cons, hfb]
    · simp only [buildObjects, if_neg hm] at h
      cases hp : process_feature f with
      | error e => rw [hp] at h; cases h
      | ok obj =>
        rw [hp] at h
        cases hb : buildObjects (binOf f :: E) rest with
        | error e => rw [hb] at h; cases h
        | ok objs' =>
          rw [hb] at h
          injection h with h
          subst h
          obtain ⟨g, -, rfl⟩ := process_feature_ok_inv hp
          have ihres := ih hb
          by_cases hfb : binOf f = PVal.null
          · have hE : PVal.null ∉ E := fun hq => hm (hfb ▸ hq)
            have : PVal.null ∈ binOf f :: E := hfb ▸ List.mem_cons_self _ _
            rw [if_pos this] at ihres
            simp [List.countP_cons, mkBuilding_bin, hfb, ihres, hE]
          · have hiff : (PVal.null ∈ binOf f :: E) ↔ PVal.null ∈ E := by
              constructor
              · intro hq
                rcases List.mem_cons.1 hq with heq | hq
                · exact absurd heq.symm hfb
                · exact hq
              · exact List.mem_cons_of_mem _
            by_cases hE : PVal.null ∈ E
            · rw [if_pos (hiff.2 hE)] at ihres
              simp [List.countP_cons, mkBuilding_bin, hfb, ihres, hE]
            · rw [if_neg (fun hq => hE (hiff.1 hq))] at ihres
              simp [List.countP_cons, mkBuilding_bin, hfb, ihres, hE]

theorem pageExisting_no_null (db : Db) (page : List Feature) :
    PVal.null ∉ pageExisting db page := by
  intro hmem
  have := batchBins_truthy (mem_pageExisting_iff.1 hmem).2
  simp [pythonTruthy] at this

/-! ### Field coercion helpers -/

theorem coerceInt_str_none {s : String} (h : parseIntStr s = none) :
    coerceInt (PVal.str s) = none := by
  by_cases ht : pythonTruthy (PVal.str s) = true
  · simp [coerceInt, ht, h]
  · simp only [Bool.not_eq_true] at ht
    simp [coerceInt, ht]

theorem coerceFloat_str_none {s : String} (h : parseFloatStr s = none) :
    coerceFloat (PVal.str s) = none := by
  by_cases ht : pythonTruthy (PVal.str s) = true
  · simp [coerceFloat, ht, h]
  · simp only [Bool.not_eq_true] at ht
    simp [coerceFloat, ht]

instance exceptDecEq {ε α : Type} [DecidableEq ε] [DecidableEq α] :
    DecidableEq (Except ε α) := fun a b =>
  match a, b with
  | Except.error e1, Except.error e2 =>
    if h : e1 = e2 then Decidable.isTrue (by rw [h])
    else Decidable.isFalse (fun hc => h (by injection hc))
  | Except.error _, Except.ok _ => Decidable.isFalse (fun hc => Except.noConfusion hc)
  | Except.ok _, Except.error _ => Decidable.isFalse (fun hc => Except.noConfusion hc)
  | Except.ok a1, Except.ok a2 =>
    if h : a1 = a2 then Decidable.isTrue (by rw [h])
    else Decidable.isFalse (fun hc => h (by injection hc))

/-! ## Claim C1 -/

/-- A source feature whose geometry is a bare GeoJSON polygon. -/
def featC1 : Feature :=
  { properties := [("bin", PVal.str "P1")]
    geometry := GeoJson.polygon [[((0 : Int), (0 : Int)), (1, 0), (1, 1), (0, 0)]] }

/-- C1: the spec says the normalizer's output is always of multi-polygon
type and that a bare polygon is upgraded to a single-member multi-polygon
before being written.  The code does not upgrade: on a bare-polygon
feature, `process_feature` emits a POLYGON-tagged WKT unchanged, which the
MULTIPOLYGON-typed `geom` column rejects, so the batch fails and nothing
is persisted. -/
theorem claim_C1_polygon_not_upgraded :
    (process_feature featC1).map (fun b => wktTag b.geom) = Except.ok "POLYGON"
    ∧ (runScraper [[featC1]] (Db.mk [])).db.rows = []
    ∧ (runScraper [[featC1]] (Db.mk [])).commit_failures = 1 := by
  decide

/-! ## Claim C2 -/

/-- A feature whose geometry dict shapely rejects. -/
def featC2bad : Feature :=
  { properties := [("bin", PVal.str "X1")], geometry := GeoJson.invalid "Foo" }

/-- A well-formed feature sitting after the bad one in the same page. -/
def featC2good : Feature :=
  { properties := [("bin", PVal.str "X2")]
    geometry := GeoJson.multiPolygon [[[((0 : Int), (0 : Int)), (1, 0), (1, 1), (0, 0)]]] }

/-- C2 counterexample: on a page holding an unparseable-geometry feature
followed by a good one, with a further page behind it, the run stops after
a single fetch with an uncaught error: the good sibling is never
persisted and the second page is never requested — the run does not
continue past the bad record as the claim states. -/
theorem claim_C2_counterexample :
    (runScraper [[featC2bad, featC2good], [featC2good]] (Db.mk [])).fetches = 1
    ∧ (runScraper [[featC2bad, featC2good], [featC2good]] (Db.mk [])).db.rows = []
    ∧ (runScraper [[featC2bad, featC2good], [featC2good]] (Db.mk [])).crashed
        = some "Unknown geometry type: Foo" := by
  decide

/-- C2 amended: a feature whose geometry cannot be parsed is indeed never
persisted and never given a null geometry, but the failure is not
record-scoped: the parse error propagates uncaught, so the page's records
are all discarded, the run's store is left unchanged, and no further page
is fetched. -/
theorem claim_C2_crash_aborts_run (st : LoopState) (page : List Feature)
    (rest : List (List Feature)) (e : String)
    (hne : page ≠ [])
    (hpb : pageBatch st.db page = Except.error e) :
    runFrom (page :: rest) st = stepPage (fetchMark st) page
    ∧ (stepPage (fetchMark st) page).crashed = some e
    ∧ (stepPage (fetchMark st) page).db = st.db
    ∧ (stepPage (fetchMark st) page).total_inserted = st.total_inserted
    ∧ (stepPage (fetchMark st) page).fetches = st.fetches + 1 := by
  have hpb' : pageBatch (fetchMark st).db page = Except.error e := hpb
  have hstep := stepPage_of_error hpb'
  have hcr : (stepPage (fetchMark st) page).crashed.isSome = true := by
    rw [hstep]
    rfl
  refine ⟨runFrom_cons_crash rest st hne hcr, ?_, ?_, ?_, ?_⟩
  · rw [hstep]
  · rw [hstep]; simp [fetchMark]
  · rw [hstep]; simp [fetchMark]
  · rw [hstep]; simp [fetchMark]

/-- Witness for C2's amended theorem at a concrete input. -/
theorem claim_C2_crash_witness :
    [featC2bad, featC2good] ≠ ([] : List Feature)
    ∧ pageBatch (LoopState.mk (Db.mk []) 0 0 0 [] 0 0 none).db [featC2bad, featC2good]
        = Except.error "Unknown geometry type: Foo"
    ∧ (runFrom [[featC2bad, featC2good], [featC2good]] (LoopState.mk (Db.mk []) 0 0 0 [] 0 0 none)
        = stepPage (fetchMark (LoopState.mk (Db.mk []) 0 0 0 [] 0 0 none)) [featC2bad, featC2good]
      ∧ (stepPage (fetchMark (LoopState.mk (Db.mk []) 0 0 0 [] 0 0 none))
          [featC2bad, featC2good]).crashed = some "Unknown geometry type: Foo"
      ∧ (stepPage (fetchMark (LoopState.mk (Db.mk []) 0 0 0 [] 0 0 none))
          [featC2bad, featC2good]).db = (LoopState.mk (Db.mk []) 0 0 0 [] 0 0 none).db
      ∧ (stepPage (fetchMark (LoopState.mk (Db.mk []) 0 0 0 [] 0 0 none))
          [featC2bad, featC2good]).total_inserted
          = (LoopState.mk (Db.mk []) 0 0 0 [] 0 0 none).total_inserted
      ∧ (stepPage (fetchMark (LoopState.mk (Db.mk []) 0 0 0 [] 0 0 none))
          [featC2bad, featC2good]).fetches
          = (LoopState.mk (Db.mk []) 0 0 0 [] 0 0 none).fetches + 1) :=
  ⟨by decide, by decide,
   claim_C2_crash_aborts_run (LoopState.mk (Db.mk []) 0 0 0 [] 0 0 none)
     [featC2bad, featC2good] [[featC2good]] "Unknown geometry type: Foo"
     (by decide) (by decide)⟩

/-! ## Claim C3 -/

/-- A key-less feature (has properties but no `bin`). -/
def featC3a : Feature :=
  { properties := [("name", PVal.str "a")]
    geometry := GeoJson.multiPolygon [[[((0 : Int), (0 : Int)), (1, 0), (1, 1), (0, 0)]]] }

/-- A second key-less feature (empty properties). -/
def featC3b : Feature :=
  { properties := []
    geometry := GeoJson.multiPolygon [[[((0 : Int), (0 : Int)), (2, 0), (2, 2), (0, 0)]]] }

/-- C3 counterexample: a page holding two key-less features inserts only
one record — the second key-less record IS suppressed against the earlier
key-less record of the same page, contradicting the claim that a key-less
record is never suppressed. -/
theorem claim_C3_counterexample :
    (runScraper [[featC3a, featC3b]] (Db.mk [])).total_inserted = 1
    ∧ (runScraper [[featC3a, featC3b]] (Db.mk [])).db.rows.length = 1 := by
  decide

/-- C3 amended: a key-less record is never suppressed against persisted
state — whatever the store holds, the number of key-less records a page
passes to the committer is `min(number present, 1)`: the first key-less
record of a page always passes, and every later one is suppressed as an
in-page duplicate of the null key (the loop adds `None` to the seen set). -/
theorem claim_C3_keyless_dedup (db : Db) (page : List Feature) (objs : List NycBuilding)
    (h : pageBatch db page = Except.ok objs) :
    objs.countP (fun o => decide (o.bin = PVal.null))
      = min (page.countP (fun f => decide (binOf f = PVal.null))) 1 := by
  have := buildObjects_keyless_count_aux h
  rwa [if_neg (pageExisting_no_null db page)] at this

/-- Witness for C3's amended theorem at a concrete input. -/
theorem claim_C3_keyless_witness :
    pageBatch (Db.mk []) [featC3a, featC3b]
      = Except.ok [mkBuilding featC3a (SGeom.multiPolygon [[[(0, 0), (1, 0), (1, 1), (0, 0)]]])]
    ∧ ([mkBuilding featC3a (SGeom.multiPolygon [[[(0, 0), (1, 0), (1, 1), (0, 0)]]])].countP
          (fun o => decide (o.bin = PVal.null))
        = min ([featC3a, featC3b].countP (fun f => decide (binOf f = PVal.null))) 1) :=
  ⟨by decide, claim_C3_keyless_dedup (Db.mk []) [featC3a, featC3b] _ (by decide)⟩

/-! ## Claim C4 -/

/-- The clean-feed hypothesis for idempotence: the source serves non-empty
pages of features that all carry a truthy key and a multi-polygon
geometry. -/
def goodPages (pages : List (List Feature)) : Prop :=
  ∀ p ∈ pages, p ≠ [] ∧ ∀ f ∈ p, goodFeature f = true

instance goodPages_decidable (pages : List (List Feature)) : Decidable (goodPages pages) := by
  unfold goodPages
  infer_instance

/-- A key-less feature used to break idempotence. -/
def featC4 : Feature :=
  { properties := [("height_roof", PVal.str "20.5")]
    geometry := GeoJson.multiPolygon [[[((0 : Int), (0 : Int)), (1, 0), (1, 1), (0, 0)]]] }

/-- C4 counterexample: a record without a `bin` key is inserted by the
first run and inserted AGAIN by a second run over the unchanged source —
the second run inserts one record, not zero. -/
theorem claim_C4_counterexample :
    (runScraper [[featC4]] (Db.mk [])).total_inserted = 1
    ∧ (runScraper [[featC4]] ((runScraper [[featC4]] (Db.mk [])).db)).total_inserted = 1 := by
  decide

/-- C4 amended: the pipeline is idempotent on clean feeds — provided every
feature of the (unchanged) source carries a truthy key and a multi-polygon
geometry, every record the first run persisted is suppressed by the
duplicate filter on the second run, which therefore inserts zero records
and leaves the store unchanged. -/
theorem claim_C4_idempotent_keyed (pages : List (List Feature)) (db0 : Db)
    (h : goodPages pages) :
    (runScraper pages ((runScraper pages db0).db)).total_inserted = 0
    ∧ (runScraper pages ((runScraper pages db0).db)).db = (runScraper pages db0).db := by
  have h1 := runFrom_good pages (LoopState.mk db0 0 0 0 [] 0 0 none) rfl h
  exact runFrom_all_dup pages
    (LoopState.mk ((runScraper pages db0).db) 0 0 0 [] 0 0 none) rfl
    (fun p hp f hf => ⟨(goodFeature_shape ((h p hp).2 f hf)).1, h1.2 p hp f hf⟩)

/-- A well-keyed multi-polygon feature. -/
def featC4w : Feature :=
  { properties := [("bin", PVal.str "B9")]
    geometry := GeoJson.multiPolygon [[[((0 : Int), (0 : Int)), (1, 0), (1, 1), (0, 0)]]] }

/-- Witness for C4's amended theorem at a concrete input. -/
theorem claim_C4_idempotent_witness :
    goodPages [[featC4w]]
    ∧ (runScraper [[featC4w]] ((runScraper [[featC4w]] (Db.mk [])).db)).total_inserted = 0 :=
  ⟨by decide, (claim_C4_idempotent_keyed [[featC4w]] (Db.mk []) (by decide)).1⟩

/-! ## Claim C5 -/

/-- A key-less feature on a page of its own. -/
def featC5 : Feature :=
  { properties := [("name", PVal.str "k")]
    geometry := GeoJson.multiPolygon [[[((0 : Int), (0 : Int)), (1, 0), (1, 1), (0, 0)]]] }

/-- C5 counterexample: on a page none of whose features has a truthy key,
the duplicate filter issues ZERO storage queries, not exactly one — the
query is skipped when `batch_bins` is empty (two fetches confirm the page
was processed normally). -/
theorem claim_C5_counterexample :
    (runScraper [[featC5]] (Db.mk [])).db_queries = 0
    ∧ (runScraper [[featC5]] (Db.mk [])).fetches = 2 := by
  decide

/-- C5 amended: the duplicate filter issues AT MOST one set-membership
query per page — exactly one when the page has at least one truthy key and
none otherwise — and its output is the subsequence of the page's records,
in original order, whose keys are neither (truthy and persisted) nor
already accepted earlier in that page; in particular the bins of the
output are pairwise distinct, so of two same-`bin` features in one page
only the first survives.  (`specFilter` is worded from the spec; a falsy
key never matches the persisted side, because the query covers truthy keys
only.) -/
theorem claim_C5_filter_characterization :
    (∀ (st : LoopState) (page : List Feature),
      (stepPage st page).db_queries
        = st.db_queries + (if (batchBins page).isEmpty then 0 else 1))
    ∧ (∀ (db : Db) (page : List Feature),
      selectNew (pageExisting db page) page
        = specFilter (fun b => pythonTruthy b && dbHasBin db b) [] page)
    ∧ (∀ (E : List PVal) (fs : List Feature), (selectNew E fs).Sublist fs)
    ∧ (∀ (E : List PVal) (fs : List Feature), ((selectNew E fs).map binOf).Nodup) :=
  ⟨stepPage_db_queries, selectNew_eq_specFilter, selectNew_sublist,
   fun E fs => (selectNew_bins_nodup_fresh fs E).1⟩


/-! ## Claim C6 -/

theorem fetchMark_crashed (st : LoopState) : (fetchMark st).crashed = st.crashed := rfl

theorem fetchMark_offset (st : LoopState) : (fetchMark st).offset = st.offset := rfl

theorem fetchMark_fetches (st : LoopState) : (fetchMark st).fetches = st.fetches + 1 := rfl

theorem fetchMark_offsets_list (st : LoopState) :
    (fetchMark st).fetched_offsets = st.fetched_offsets ++ [st.offset] := rfl

theorem fetchMark_db (st : LoopState) : (fetchMark st).db = st.db := rfl

/-- C6: the offset cursor starts at zero and the sequence of requested
offsets is exactly `0, BATCH_SIZE, 2*BATCH_SIZE, ...` — each processed
page advances the cursor by exactly the configured page size, no matter
how many of its records survived deduplication or were committed — and the
final cursor equals the offset of the last fetch made. -/
theorem claim_C6_cursor_advance (pages : List (List Feature)) (db0 : Db) :
    (runScraper pages db0).fetched_offsets
      = (List.range (runScraper pages db0).fetches).map (fun k => k * BATCH_SIZE)
    ∧ (runScraper pages db0).offset = ((runScraper pages db0).fetches - 1) * BATCH_SIZE := by
  have hh := runFrom_offsets pages (LoopState.mk db0 0 0 0 [] 0 0 none) rfl (by simp) (by simp)
  exact hh

/-! ## Claim C7 -/

theorem runFrom_two_pages (st : LoopState) (p0 p1 : List Feature)
    (hc : st.crashed = none) (hne0 : p0 ≠ []) (hne1 : p1 ≠ [])
    (hcrash : (runFrom [p0, p1] st).crashed = none) :
    (runFrom [p0, p1] st).fetches = st.fetches + 3
    ∧ (runFrom [p0, p1] st).fetched_offsets
        = st.fetched_offsets
          ++ [st.offset, st.offset + BATCH_SIZE, st.offset + BATCH_SIZE + BATCH_SIZE] := by
  have hfc0 : (fetchMark st).crashed = none := (fetchMark_crashed st).trans hc
  cases hcr1 : (stepPage (fetchMark st) p0).crashed.isSome with
  | true =>
    rw [runFrom_cons_crash [p1] st hne0 hcr1] at hcrash
    rw [hcrash] at hcr1
    simp at hcr1
  | false =>
    have hf0 := stepPage_not_crashed_fields hfc0 hcr1
    rw [runFrom_cons_go [p1] st hne0 hcr1] at hcrash ⊢
    have hfc2 : (fetchMark (stepPage (fetchMark st) p0)).crashed = none :=
      (fetchMark_crashed _).trans hf0.1
    cases hcr2 : (stepPage (fetchMark (stepPage (fetchMark st) p0)) p1).crashed.isSome with
    | true =>
      rw [runFrom_cons_crash [] _ hne1 hcr2] at hcrash
      rw [hcrash] at hcr2
      simp at hcr2
    | false =>
      have hf1 := stepPage_not_crashed_fields hfc2 hcr2
      rw [runFrom_cons_go [] _ hne1 hcr2, runFrom_nil]
      constructor
      · rw [fetchMark_fetches, hf1.2.2.1, fetchMark_fetches, hf0.2.2.1, fetchMark_fetches]
      · rw [fetchMark_offsets_list, hf1.2.2.2, fetchMark_offsets_list, hf0.2.2.2,
          fetchMark_offsets_list, hf1.2.1, fetchMark_offset, hf0.2.1, fetchMark_offset]
        simp

/-- C7: the loop stops exactly on the empty page.  First, the spec's
scenario: for a source serving two full pages (offsets 0 and 1000) and
then an empty page, a crash-free run makes exactly 3 fetches, at offsets
0, 1000 and 2000, and no further requests.  Second, a non-empty page whose
records are all deduplicated (the filter selects nothing) does not stop
the loop: its cursor still advances by the page size, the store is
untouched, and the loop proceeds to the next page. -/
theorem claim_C7_termination :
    (∀ (db0 : Db) (p0 p1 : List Feature),
      p0.length = 1000 → p1.length = 1000 →
      (runScraper [p0, p1] db0).crashed = none →
      (runScraper [p0, p1] db0).fetches = 3
      ∧ (runScraper [p0, p1] db0).fetched_offsets = [0, 1000, 2000])
    ∧ (∀ (st : LoopState) (page : List Feature) (rest : List (List Feature)),
      st.crashed = none → page ≠ [] →
      selectNew (pageExisting st.db page) page = [] →
      runFrom (page :: rest) st = runFrom rest (stepPage (fetchMark st) page)
      ∧ (stepPage (fetchMark st) page).offset = st.offset + BATCH_SIZE
      ∧ (stepPage (fetchMark st) page).db = st.db
      ∧ (stepPage (fetchMark st) page).crashed = none) := by
  constructor
  · intro db0 p0 p1 h0 h1 hcrash
    have hne0 : p0 ≠ [] := by intro hq; rw [hq] at h0; simp at h0
    have hne1 : p1 ≠ [] := by intro hq; rw [hq] at h1; simp at h1
    have hrs : runScraper [p0, p1] db0
        = runFrom [p0, p1] (LoopState.mk db0 0 0 0 [] 0 0 none) := rfl
    rw [hrs] at hcrash ⊢
    have hh := runFrom_two_pages (LoopState.mk db0 0 0 0 [] 0 0 none) p0 p1 rfl hne0 hne1 hcrash
    refine ⟨?_, ?_⟩
    · rw [hh.1]
    · rw [hh.2]
      simp [BATCH_SIZE]
  · intro st page rest hc hne hsel
    have hpb : pageBatch st.db page = Except.ok [] := buildObjects_ok_of_nil_select hsel
    have hpb' : pageBatch (fetchMark st).db page = Except.ok [] := hpb
    have hstep : stepPage (fetchMark st) page
        = { fetchMark st with
              db_queries := (fetchMark st).db_queries
                + (if (batchBins page).isEmpty then 0 else 1)
              offset := (fetchMark st).offset + BATCH_SIZE } := by
      simp [stepPage, hpb']
    have hcrn : (stepPage (fetchMark st) page).crashed = none := by
      rw [hstep]
      exact (fetchMark_crashed st).trans hc
    have hcr : (stepPage (fetchMark st) page).crashed.isSome = false := by simp [hcrn]
    refine ⟨runFrom_cons_go rest st hne hcr, ?_, ?_, hcrn⟩
    · rw [hstep]
      simp [fetchMark]
    · rw [hstep]
      exact fetchMark_db st

/-- A full page of 1000 identically-keyed features for the C7 scenario. -/
def featC7 : Feature :=
  { properties := [("bin", PVal.str "B1")]
    geometry := GeoJson.multiPolygon [[[((0 : Int), (0 : Int)), (1, 0), (1, 1), (0, 0)]]] }

def dbC7 : Db :=
  Db.mk [mkBuilding featC7 (SGeom.multiPolygon [[[((0 : Int), (0 : Int)), (1, 0), (1, 1), (0, 0)]]])]

def stC7 : LoopState := LoopState.mk dbC7 0 1000 1 [0] 1 0 none

set_option maxRecDepth 100000 in
/-- Witness for C7 at concrete inputs: two concrete full pages for the
scenario, and a concrete fully-deduplicated page for the second part. -/
theorem claim_C7_termination_witness :
    ((List.replicate 1000 featC7).length = 1000
      ∧ (runScraper [List.replicate 1000 featC7, List.replicate 1000 featC7]
          (Db.mk [])).crashed = none
      ∧ (runScraper [List.replicate 1000 featC7, List.replicate 1000 featC7]
          (Db.mk [])).fetches = 3
      ∧ (runScraper [List.replicate 1000 featC7, List.replicate 1000 featC7]
          (Db.mk [])).fetched_offsets = [0, 1000, 2000])
    ∧ (selectNew (pageExisting dbC7 [featC7]) [featC7] = []
      ∧ (stepPage (fetchMark stC7) [featC7]).offset = stC7.offset + BATCH_SIZE) := by
  refine ⟨⟨by decide, by decide, ?_, ?_⟩, by decide, ?_⟩
  · exact (claim_C7_termination.1 (Db.mk []) (List.replicate 1000 featC7)
      (List.replicate 1000 featC7) (by decide) (by decide) (by decide)).1
  · exact (claim_C7_termination.1 (Db.mk []) (List.replicate 1000 featC7)
      (List.replicate 1000 featC7) (by decide) (by decide) (by decide)).2
  · exact (claim_C7_termination.2 stC7 [featC7] [] rfl (by decide) (by decide)).2.1

/-! ## Claim C8 -/

/-- C8: when a batch's commit fails on a constraint violation, the whole
batch rolls back (the store is exactly what it was before the page), the
failure is logged (the except branch calls `session.rollback()` and
prints, counted by `commit_failures`), the cursor still advances by the
page size, and the loop proceeds to fetch the next page rather than
aborting the run. -/
theorem claim_C8_commit_rollback (st : LoopState) (page : List Feature)
    (rest : List (List Feature)) (objs : List NycBuilding)
    (hc : st.crashed = none) (hne : page ≠ [])
    (hpb : pageBatch st.db page = Except.ok objs) (hobjs : objs ≠ [])
    (hv : commitViolates st.db objs = true) :
    (stepPage (fetchMark st) page).db = st.db
    ∧ (stepPage (fetchMark st) page).commit_failures = st.commit_failures + 1
    ∧ (stepPage (fetchMark st) page).offset = st.offset + BATCH_SIZE
    ∧ (stepPage (fetchMark st) page).crashed = none
    ∧ runFrom (page :: rest) st = runFrom rest (stepPage (fetchMark st) page) := by
  have hpb' : pageBatch (fetchMark st).db page = Except.ok objs := hpb
  have hv' : commitViolates (fetchMark st).db objs = true := hv
  have he : objs.isEmpty = false := by
    cases objs with
    | nil => exact absurd rfl hobjs
    | cons a l => rfl
  have hstep : stepPage (fetchMark st) page
      = { fetchMark st with
            db_queries := (fetchMark st).db_queries
              + (if (batchBins page).isEmpty then 0 else 1)
            commit_failures := (fetchMark st).commit_failures + 1
            offset := (fetchMark st).offset + BATCH_SIZE } := by
    simp [stepPage, hpb', he, hv']
  have hcrn : (stepPage (fetchMark st) page).crashed = none := by
    rw [hstep]
    exact (fetchMark_crashed st).trans hc
  have hcr : (stepPage (fetchMark st) page).crashed.isSome = false := by simp [hcrn]
  refine ⟨?_, ?_, ?_, hcrn, runFrom_cons_go rest st hne hcr⟩
  · rw [hstep]
    exact fetchMark_db st
  · rw [hstep]
    simp [fetchMark]
  · rw [hstep]
    simp [fetchMark]

/-- A persisted row whose key is the empty string: non-null for the SQL
unique index, but falsy for the filter's guards. -/
def rowC8 : NycBuilding :=
  NycBuilding.mk (PVal.str "") PVal.null none none none []
    (SGeom.multiPolygon [[[((0 : Int), (0 : Int)), (1, 0), (1, 1), (0, 0)]]])

/-- A feature whose key collides with `rowC8` only at commit time: the
duplicate filter cannot see the collision because empty-string keys are
excluded from the per-page query, so the unique index fires on commit. -/
def featC8 : Feature :=
  { properties := [("bin", PVal.str "")]
    geometry := GeoJson.multiPolygon [[[((0 : Int), (0 : Int)), (1, 0), (1, 1), (0, 0)]]] }

def featC8b : Feature :=
  { properties := [("bin", PVal.str "Y1")]
    geometry := GeoJson.multiPolygon [[[((0 : Int), (0 : Int)), (1, 0), (1, 1), (0, 0)]]] }

def stC8 : LoopState := LoopState.mk (Db.mk [rowC8]) 0 1000 1 [0] 1 0 none

def objC8 : NycBuilding :=
  mkBuilding featC8 (SGeom.multiPolygon [[[((0 : Int), (0 : Int)), (1, 0), (1, 1), (0, 0)]]])

/-- Witness for C8 at a concrete input: a batch violating the unique `bin`
index rolls back atomically and the run moves on to the next page. -/
theorem claim_C8_commit_witness :
    (stC8.crashed = none
      ∧ [featC8] ≠ ([] : List Feature)
      ∧ pageBatch stC8.db [featC8] = Except.ok [objC8]
      ∧ [objC8] ≠ ([] : List NycBuilding)
      ∧ commitViolates stC8.db [objC8] = true)
    ∧ ((stepPage (fetchMark stC8) [featC8]).db = stC8.db
      ∧ (stepPage (fetchMark stC8) [featC8]).commit_failures = stC8.commit_failures + 1
      ∧ (stepPage (fetchMark stC8) [featC8]).offset = stC8.offset + BATCH_SIZE
      ∧ (stepPage (fetchMark stC8) [featC8]).crashed = none
      ∧ runFrom [[featC8], [featC8b]] stC8
          = runFrom [[featC8b]] (stepPage (fetchMark stC8) [featC8])) :=
  ⟨⟨rfl, by decide, by decide, by decide, by decide⟩,
   claim_C8_commit_rollback stC8 [featC8] [[featC8b]] [objC8] rfl (by decide) (by decide)
     (by decide) (by decide)⟩

/-! ## Claim C9 -/

/-- C9: once the geometry parses, nothing else can reject the record:
`process_feature` succeeds, `raw_properties` is always the complete source
attribute mapping verbatim, and a typed field whose raw value is missing
(null) or a string its parser rejects resolves to null without
invalidating the record. -/
theorem claim_C9_coercion_tolerant (f : Feature) (h : (shape f.geometry).isOk = true) :
    ∃ b, process_feature f = Except.ok b
    ∧ b.raw_properties = f.properties
    ∧ (getProp f.properties "construction_year" = PVal.null → b.construction_year = none)
    ∧ (∀ s, getProp f.properties "construction_year" = PVal.str s →
        parseIntStr s = none → b.construction_year = none)
    ∧ (getProp f.properties "height_roof" = PVal.null → b.height_roof = none)
    ∧ (∀ s, getProp f.properties "height_roof" = PVal.str s →
        parseFloatStr s = none → b.height_roof = none)
    ∧ (getProp f.properties "doitt_id" = PVal.null → b.doitt_id = none)
    ∧ (∀ s, getProp f.properties "doitt_id" = PVal.str s →
        parseIntStr s = none → b.doitt_id = none) := by
  obtain ⟨g, hg⟩ := except_isOk_exists h
  refine ⟨mkBuilding f g, process_feature_of_shape hg, rfl, ?_, ?_, ?_, ?_, ?_, ?_⟩
  · intro hnull
    show coerceInt (getProp f.properties "construction_year") = none
    rw [hnull]
    rfl
  · intro s hs hparse
    show coerceInt (getProp f.properties "construction_year") = none
    rw [hs]
    exact coerceInt_str_none hparse
  · intro hnull
    show coerceFloat (getProp f.properties "height_roof") = none
    rw [hnull]
    rfl
  · intro s hs hparse
    show coerceFloat (getProp f.properties "height_roof") = none
    rw [hs]
    exact coerceFloat_str_none hparse
  · intro hnull
    show coerceInt (getProp f.properties "doitt_id") = none
    rw [hnull]
    rfl
  · intro s hs hparse
    show coerceInt (getProp f.properties "doitt_id") = none
    rw [hs]
    exact coerceInt_str_none hparse

/-- The spec's scenario record: `construction_year: "N/A"`, with
non-numeric strings in the other typed fields too. -/
def featC9 : Feature :=
  { properties := [("bin", PVal.str "B77"), ("base_bbl", PVal.str "1000010001"),
      ("construction_year", PVal.str "N/A"), ("height_roof", PVal.str "tall"),
      ("doitt_id", PVal.str "12.7")]
    geometry := GeoJson.multiPolygon [[[((0 : Int), (0 : Int)), (1, 0), (1, 1), (0, 0)]]] }

/-- Witness for C9 at the spec's scenario input. -/
theorem claim_C9_coercion_witness :
    (shape featC9.geometry).isOk = true
    ∧ (∃ b, process_feature featC9 = Except.ok b
      ∧ b.raw_properties = featC9.properties
      ∧ (getProp featC9.properties "construction_year" = PVal.null → b.construction_year = none)
      ∧ (∀ s, getProp featC9.properties "construction_year" = PVal.str s →
          parseIntStr s = none → b.construction_year = none)
      ∧ (getProp featC9.properties "height_roof" = PVal.null → b.height_roof = none)
      ∧ (∀ s, getProp featC9.properties "height_roof" = PVal.str s →
          parseFloatStr s = none → b.height_roof = none)
      ∧ (getProp featC9.properties "doitt_id" = PVal.null → b.doitt_id = none)
      ∧ (∀ s, getProp featC9.properties "doitt_id" = PVal.str s →
          parseIntStr s = none → b.doitt_id = none)) :=
  ⟨by decide, claim_C9_coercion_tolerant featC9 (by decide)⟩

/-! ## Claim C10 -/

/-- C10: a typed field whose raw value is present but falsy — the number
0, the number 0.0, or the empty string — coerces to null, not to zero:
the coercion is gated on Python truthiness of the raw value, not on its
presence. -/
theorem claim_C10_falsy_zero_null (f : Feature) (b : NycBuilding)
    (h : process_feature f = Except.ok b) :
    (getProp f.properties "construction_year" ∈ [PVal.int 0, PVal.float 0, PVal.str ""] →
      b.construction_year = none)
    ∧ (getProp f.properties "height_roof" ∈ [PVal.int 0, PVal.float 0, PVal.str ""] →
      b.height_roof = none)
    ∧ (getProp f.properties "doitt_id" ∈ [PVal.int 0, PVal.float 0, PVal.str ""] →
      b.doitt_id = none) := by
  obtain ⟨g, hg, rfl⟩ := process_feature_ok_inv h
  refine ⟨?_, ?_, ?_⟩
  · intro hmem
    show coerceInt (getProp f.properties "construction_year") = none
    simp only [List.mem_cons, List.not_mem_nil, or_false] at hmem
    rcases hmem with hv | hv | hv
    · rw [hv]; rfl
    · rw [hv]; decide
    · rw [hv]; rfl
  · intro hmem
    show coerceFloat (getProp f.properties "height_roof") = none
    simp only [List.mem_cons, List.not_mem_nil, or_false] at hmem
    rcases hmem with hv | hv | hv
    · rw [hv]; rfl
    · rw [hv]; decide
    · rw [hv]; rfl
  · intro hmem
    show coerceInt (getProp f.properties "doitt_id") = none
    simp only [List.mem_cons, List.not_mem_nil, or_false] at hmem
    rcases hmem with hv | hv | hv
    · rw [hv]; rfl
    · rw [hv]; decide
    · rw [hv]; rfl

/-- A feature whose three typed fields hold the three falsy raw values. -/
def featC10 : Feature :=
  { properties := [("bin", PVal.str "B0"), ("construction_year", PVal.int 0),
      ("height_roof", PVal.float 0), ("doitt_id", PVal.str "")]
    geometry := GeoJson.multiPolygon [[[((0 : Int), (0 : Int)), (1, 0), (1, 1), (0, 0)]]] }

def bC10 : NycBuilding :=
  mkBuilding featC10 (SGeom.multiPolygon [[[((0 : Int), (0 : Int)), (1, 0), (1, 1), (0, 0)]]])

/-- Witness for C10 at a concrete input: all three falsy values coerce to
null, not zero. -/
theorem claim_C10_falsy_witness :
    process_feature featC10 = Except.ok bC10
    ∧ bC10.construction_year = none
    ∧ bC10.height_roof = none
    ∧ bC10.doitt_id = none :=
  ⟨by decide,
   (claim_C10_falsy_zero_null featC10 bC10 (by decide)).1 (by decide),
   (claim_C10_falsy_zero_null featC10 bC10 (by decide)).2.1 (by decide),
   (claim_C10_falsy_zero_null featC10 bC10 (by decide)).2.2 (by decide)⟩
